import Mathlib

/-!
Verification development for the OPF repository (Optimal Power Flow,
`opf_corrected.py` / `opf_utils.py`), as a shallow embedding in Lean 4.

Modelling conventions:
* Python floats are modelled as exact rationals.  Every numeric literal of the
  repository is a short decimal, represented exactly; `np.pi` is the exact
  rational value of the IEEE-754 double `3.141592653589793`.
* Python runtime failures (`ZeroDivisionError`, `AttributeError`, `TypeError`)
  are modelled with an `Except` monad; `pydiv` is Python's `/` on floats, which
  raises `ZeroDivisionError` on a zero divisor.
* `numpy` n-by-n matrices are modelled as total functions `ℕ → ℕ → ℚ`; the
  program only ever reads and writes entries with indices below `N_BUS`
  (out-of-range access would be an `IndexError`, which no claim exercises).
* Pyomo models are declarative: variables, fixes, bounds and constraint
  expression trees handed to an external solver.  The expression trees are
  embedded deeply (`Expr`), with an evaluation over any field and any
  interpretation of `pyo.cos` / `pyo.sin`; the external solver itself is out of
  scope (spec sections 2 and 5, "Solve Orchestrator … external to the core").
* The module-level constants `N_BUS`, `BUS_DATA`, `LINE_DATA` of
  `opf_corrected.py` are embedded as definitions; `build_admittance_matrices`
  reads the line list, which is passed as an argument here (the spec's own
  contract is `build_admittance_matrices(line_list, n_buses)`).
-/

namespace OPF

/-- Python runtime errors raised by the embedded code paths. -/
inductive PyErr
  | zeroDivision
  | attributeError
  | typeError
deriving DecidableEq, Repr

/-- Python float division: raises ZeroDivisionError on a zero divisor,
otherwise returns the quotient. -/
def pydiv (a b : ℚ) : Except PyErr ℚ :=
  if b = 0 then .error .zeroDivision else .ok (a / b)

/-- One row of BUS_DATA in opf_corrected.py. -/
structure BusRec where
  PGmax : ℚ
  PGmin : ℚ
  QGmax : ℚ
  QGmin : ℚ
  Pload : ℚ
  Qload : ℚ
  Vmax : ℚ
  Vmin : ℚ
  a : ℚ
  b : ℚ
  c : ℚ
deriving DecidableEq, Repr

/-- N_BUS = 5 (opf_corrected.py line 14). -/
def N_BUS : ℕ := 5

/-- BUS_DATA of opf_corrected.py (keys 0..4).  Reading any other key would be
a Python KeyError; the program only reads keys 0..4, so the catch-all row is
never consulted. -/
def BUS_DATA : ℕ → BusRec
  | 0 => { PGmax := 2.0, PGmin := 0.0, QGmax := 1.5, QGmin := -1.5,
           Pload := 0.0, Qload := 0.0, Vmax := 1.06, Vmin := 1.06,
           a := 0.0, b := 14.0, c := 0.0 }
  | 1 => { PGmax := 0.8, PGmin := 0.0, QGmax := 0.6, QGmin := -0.4,
           Pload := 0.2, Qload := 0.1, Vmax := 1.05, Vmin := 0.95,
           a := 15.0, b := 16.0, c := 10.0 }
  | 2 => { PGmax := 0.5, PGmin := 0.0, QGmax := 0.4, QGmin := -0.3,
           Pload := 0.45, Qload := 0.15, Vmax := 1.05, Vmin := 0.95,
           a := 18.0, b := 20.0, c := 12.0 }
  | 3 => { PGmax := 0.0, PGmin := 0.0, QGmax := 0.0, QGmin := 0.0,
           Pload := 0.40, Qload := 0.05, Vmax := 1.05, Vmin := 0.95,
           a := 0.0, b := 0.0, c := 0.0 }
  | 4 => { PGmax := 0.0, PGmin := 0.0, QGmax := 0.0, QGmin := 0.0,
           Pload := 0.60, Qload := 0.10, Vmax := 1.05, Vmin := 0.95,
           a := 0.0, b := 0.0, c := 0.0 }
  | _ => { PGmax := 0, PGmin := 0, QGmax := 0, QGmin := 0,
           Pload := 0, Qload := 0, Vmax := 0, Vmin := 0, a := 0, b := 0, c := 0 }

/-- LINE_DATA of opf_corrected.py: (from_bus, to_bus, resistance, reactance). -/
def LINE_DATA : List (ℕ × ℕ × ℚ × ℚ) :=
  [(0, 1, 0.02, 0.06),
   (0, 2, 0.08, 0.24),
   (1, 2, 0.06, 0.18),
   (1, 3, 0.06, 0.18),
   (1, 4, 0.04, 0.12),
   (2, 3, 0.01, 0.03),
   (3, 4, 0.08, 0.24)]

/-- GEN_BUSES (opf_corrected.py line 50): buses with PGmax > 0. -/
def GEN_BUSES : List ℕ :=
  (List.range N_BUS).filter fun i => decide (0 < (BUS_DATA i).PGmax)

/-- LOAD_BUSES (opf_corrected.py line 51): buses not in GEN_BUSES. -/
def LOAD_BUSES : List ℕ :=
  (List.range N_BUS).filter fun i => decide (i ∉ GEN_BUSES)

/-- Exact rational value of the IEEE-754 double np.pi (3.141592653589793…). -/
def np_pi : ℚ := 884279719003555 / 281474976710656

/-- In-place accumulation M[i, j] += v on a matrix modelled as a function. -/
def addEntry (M : ℕ → ℕ → ℚ) (i j : ℕ) (v : ℚ) : ℕ → ℕ → ℚ :=
  fun a b => if a = i ∧ b = j then M a b + v else M a b

/-- Body of the loop of build_admittance_matrices (opf_corrected.py lines
59-67) for one line (i, j, r, x): z_sq = r² + x², g_ij = r / z_sq,
b_ij = -(x / z_sq) — the divisions raise ZeroDivisionError when z_sq = 0 —
then the eight nodal accumulations, in source order. -/
def admStep (GB : (ℕ → ℕ → ℚ) × (ℕ → ℕ → ℚ)) (l : ℕ × ℕ × ℚ × ℚ) :
    Except PyErr ((ℕ → ℕ → ℚ) × (ℕ → ℕ → ℚ)) :=
  let (i, j, r, x) := l
  let z_sq := r ^ 2 + x ^ 2
  (pydiv r z_sq).bind fun g_ij =>
  (pydiv x z_sq).map fun xdz =>
    let b_ij := -xdz
    (addEntry (addEntry (addEntry (addEntry GB.1 i i g_ij) j j g_ij) i j (-g_ij)) j i (-g_ij),
     addEntry (addEntry (addEntry (addEntry GB.2 i i b_ij) j j b_ij) i j (-b_ij)) j i (-b_ij))

/-- The `for (i, j, r, x) in LINE_DATA` loop: fold admStep over the line list,
stopping at the first Python error. -/
def admFold (GB : (ℕ → ℕ → ℚ) × (ℕ → ℕ → ℚ)) :
    List (ℕ × ℕ × ℚ × ℚ) → Except PyErr ((ℕ → ℕ → ℚ) × (ℕ → ℕ → ℚ))
  | [] => .ok GB
  | l :: ls => (admStep GB l).bind fun GB' => admFold GB' ls

/-- build_admittance_matrices (opf_corrected.py lines 54-69): start from
np.zeros((N_BUS, N_BUS)) for G and B and accumulate every line.  The line
list is the only input the function reads (module-level LINE_DATA in the
source, an argument per the spec contract). -/
def build_admittance_matrices (lines : List (ℕ × ℕ × ℚ × ℚ)) :
    Except PyErr ((ℕ → ℕ → ℚ) × (ℕ → ℕ → ℚ)) :=
  admFold (fun _ _ => 0, fun _ _ => 0) lines

/-- G matrix returned by build_admittance_matrices (zero matrix when the build
raises, in which case nothing is returned by the source). -/
def builtG (lines : List (ℕ × ℕ × ℚ × ℚ)) : ℕ → ℕ → ℚ :=
  match build_admittance_matrices lines with
  | .ok GB => GB.1
  | .error _ => fun _ _ => 0

/-- B matrix returned by build_admittance_matrices (zero matrix when the build
raises). -/
def builtB (lines : List (ℕ × ℕ × ℚ × ℚ)) : ℕ → ℕ → ℚ :=
  match build_admittance_matrices lines with
  | .ok GB => GB.2
  | .error _ => fun _ _ => 0

/-- Whether build_admittance_matrices returns normally on the given lines. -/
def admSucceeds (lines : List (ℕ × ℕ × ℚ × ℚ)) : Bool :=
  match build_admittance_matrices lines with
  | .ok _ => true
  | .error _ => false

/-- Contribution of one line to entry (a, b) of G, as claim C1 words it: with
z_sq = r² + x² and g = r / z_sq, g is added at (i, i) and (j, j) and
subtracted (added with the opposite sign) at (i, j) and (j, i). -/
def lineContribG (a b : ℕ) : ℕ × ℕ × ℚ × ℚ → ℚ
  | (i, j, r, x) =>
    let g := r / (r ^ 2 + x ^ 2)
    (((if a = i ∧ b = i then g else 0) + (if a = j ∧ b = j then g else 0)) +
        (if a = i ∧ b = j then -g else 0)) +
      (if a = j ∧ b = i then -g else 0)

/-- Contribution of one line to entry (a, b) of B, with b = -x / z_sq added at
(i, i) and (j, j) and subtracted at (i, j) and (j, i). -/
def lineContribB (a b : ℕ) : ℕ × ℕ × ℚ × ℚ → ℚ
  | (i, j, r, x) =>
    let bq := -x / (r ^ 2 + x ^ 2)
    (((if a = i ∧ b = i then bq else 0) + (if a = j ∧ b = j then bq else 0)) +
        (if a = i ∧ b = j then -bq else 0)) +
      (if a = j ∧ b = i then -bq else 0)

/-- Decision variables of the Pyomo models: Pg, Qg, V, theta per bus. -/
inductive Atom
  | Pg : ℕ → Atom
  | Qg : ℕ → Atom
  | V : ℕ → Atom
  | theta : ℕ → Atom
deriving DecidableEq, Repr

/-- Pyomo expression trees as the model builders construct them: rational
constants (bus data and float(G[i,k]) / float(B[i,k]) coefficients), decision
variables, arithmetic, integer powers, pyo.cos and pyo.sin nodes. -/
inductive Expr
  | const : ℚ → Expr
  | var : Atom → Expr
  | add : Expr → Expr → Expr
  | sub : Expr → Expr → Expr
  | mul : Expr → Expr → Expr
  | pow : Expr → ℕ → Expr
  | cos : Expr → Expr
  | sin : Expr → Expr
deriving DecidableEq, Repr

/-- Value of an expression under an assignment σ of the decision variables,
over any field R, with arbitrary interpretations c and s of pyo.cos and
pyo.sin (instantiating R := ℝ, c := Real.cos, s := Real.sin gives the analytic
reading; the claims below hold for every interpretation). -/
def Expr.eval {R : Type} [Field R] (c s : R → R) (σ : Atom → R) : Expr → R
  | .const q => (q : R)
  | .var a => σ a
  | .add e₁ e₂ => e₁.eval c s σ + e₂.eval c s σ
  | .sub e₁ e₂ => e₁.eval c s σ - e₂.eval c s σ
  | .mul e₁ e₂ => e₁.eval c s σ * e₂.eval c s σ
  | .pow e n => e.eval c s σ ^ n
  | .cos e => c (e.eval c s σ)
  | .sin e => s (e.eval c s σ)

/-- Python's sum() over a generator of expressions: fold of + from 0. -/
def sumE (l : List Expr) : Expr := l.foldl Expr.add (Expr.const 0)

/-- Objective sense of a Pyomo model. -/
inductive Sense
  | minimize
  | maximize
deriving DecidableEq, Repr

/-- The AC OPF Pyomo model as data: buses, load parameters, variable fixes
(in source order), variable bounds, objective with sense, and the two indexed
constraint families as (left side, right side) expression pairs.  Variable
domains (Reals / NonNegativeReals) and start values are solver hints not
consulted by any claim. -/
structure ACModel where
  buses : List ℕ
  Pload : ℕ → ℚ
  Qload : ℕ → ℚ
  fixes : List (Atom × ℚ)
  bounds : List (Atom × ℚ × ℚ)
  obj : Expr
  sense : Sense
  p_balance : ℕ → Expr × Expr
  q_balance : ℕ → Expr × Expr

/-- The DC OPF Pyomo model as data (no Qg, V, Qload or reactive balance). -/
structure DCModel where
  buses : List ℕ
  Pload : ℕ → ℚ
  fixes : List (Atom × ℚ)
  bounds : List (Atom × ℚ × ℚ)
  obj : Expr
  sense : Sense
  p_balance : ℕ → Expr × Expr

/-- One summand of Pflow in p_balance_rule (opf_corrected.py lines 123-129):
V[i] * V[k] * (float(G[i,k]) * cos(theta[i] - theta[k]) +
float(B[i,k]) * sin(theta[i] - theta[k])). -/
def acPTerm (G B : ℕ → ℕ → ℚ) (i k : ℕ) : Expr :=
  .mul (.mul (.var (.V i)) (.var (.V k)))
    (.add (.mul (.const (G i k)) (.cos (.sub (.var (.theta i)) (.var (.theta k)))))
          (.mul (.const (B i k)) (.sin (.sub (.var (.theta i)) (.var (.theta k))))))

/-- One summand of Qflow in q_balance_rule (opf_corrected.py lines 133-139):
V[i] * V[k] * (float(G[i,k]) * sin(theta[i] - theta[k]) -
float(B[i,k]) * cos(theta[i] - theta[k])). -/
def acQTerm (G B : ℕ → ℕ → ℚ) (i k : ℕ) : Expr :=
  .mul (.mul (.var (.V i)) (.var (.V k)))
    (.sub (.mul (.const (G i k)) (.sin (.sub (.var (.theta i)) (.var (.theta k)))))
          (.mul (.const (B i k)) (.cos (.sub (.var (.theta i)) (.var (.theta k))))))

/-- One summand of Pflow in the DC p_balance_rule (opf_corrected.py line 186):
float(B[i,k]) * (theta[i] - theta[k]). -/
def dcPTerm (B : ℕ → ℕ → ℚ) (i k : ℕ) : Expr :=
  .mul (.const (B i k)) (.sub (.var (.theta i)) (.var (.theta k)))

/-- Body of build_ac_model (opf_corrected.py lines 72-145) once the admittance
matrices are at hand: slack fixes V[0] = 1.06 and theta[0] = 0, zero fixes for
Pg and Qg of every load bus, the bound table from the setlb/setub loop, the
quadratic-cost objective over GEN_BUSES, and the two nodal balance families
with sums over range(N_BUS). -/
def build_ac_model_from (G B : ℕ → ℕ → ℚ) : ACModel :=
  { buses := List.range N_BUS
    Pload := fun i => (BUS_DATA i).Pload
    Qload := fun i => (BUS_DATA i).Qload
    fixes := [(Atom.V 0, 1.06), (Atom.theta 0, 0)] ++
      (LOAD_BUSES.map fun i => [(Atom.Pg i, (0 : ℚ)), (Atom.Qg i, (0 : ℚ))]).flatten
    bounds := ((List.range N_BUS).map fun i =>
      [(Atom.Pg i, (BUS_DATA i).PGmin, (BUS_DATA i).PGmax),
       (Atom.Qg i, (BUS_DATA i).QGmin, (BUS_DATA i).QGmax),
       (Atom.V i, (BUS_DATA i).Vmin, (BUS_DATA i).Vmax),
       (Atom.theta i, -np_pi, np_pi)]).flatten
    obj := sumE (GEN_BUSES.map fun i =>
      .add (.add (.mul (.const (BUS_DATA i).a) (.pow (.var (.Pg i)) 2))
                 (.mul (.const (BUS_DATA i).b) (.var (.Pg i))))
           (.const (BUS_DATA i).c))
    sense := .minimize
    p_balance := fun i =>
      (.sub (.var (.Pg i)) (.const (BUS_DATA i).Pload),
       sumE ((List.range N_BUS).map (acPTerm G B i)))
    q_balance := fun i =>
      (.sub (.var (.Qg i)) (.const (BUS_DATA i).Qload),
       sumE ((List.range N_BUS).map (acQTerm G B i))) }

/-- Body of build_dc_model (opf_corrected.py lines 148-191) once B is at
hand: slack fix theta[0] = 0, zero Pg fixes for load buses, bounds, linear
objective sum(b_i * Pg_i) over GEN_BUSES, and the linear balance family. -/
def build_dc_model_from (B : ℕ → ℕ → ℚ) : DCModel :=
  { buses := List.range N_BUS
    Pload := fun i => (BUS_DATA i).Pload
    fixes := [(Atom.theta 0, 0)] ++
      (LOAD_BUSES.map fun i => [(Atom.Pg i, (0 : ℚ))]).flatten
    bounds := ((List.range N_BUS).map fun i =>
      [(Atom.Pg i, (BUS_DATA i).PGmin, (BUS_DATA i).PGmax),
       (Atom.theta i, -np_pi, np_pi)]).flatten
    obj := sumE (GEN_BUSES.map fun i =>
      .mul (.const (BUS_DATA i).b) (.var (.Pg i)))
    sense := .minimize
    p_balance := fun i =>
      (.sub (.var (.Pg i)) (.const (BUS_DATA i).Pload),
       sumE ((List.range N_BUS).map (dcPTerm B i))) }

/-- build_ac_model: first calls build_admittance_matrices (its error, if any,
propagates before any model assembly), then assembles the AC model. -/
def build_ac_model (lines : List (ℕ × ℕ × ℚ × ℚ)) : Except PyErr ACModel :=
  (build_admittance_matrices lines).map fun GB => build_ac_model_from GB.1 GB.2

/-- build_dc_model: `_, B = build_admittance_matrices()`, then the DC model. -/
def build_dc_model (lines : List (ℕ × ℕ × ℚ × ℚ)) : Except PyErr DCModel :=
  (build_admittance_matrices lines).map fun GB => build_dc_model_from GB.2

/-- Conductance matrix of the repository's line data. -/
def Gmat : ℕ → ℕ → ℚ := builtG LINE_DATA

/-- Susceptance matrix of the repository's line data. -/
def Bmat : ℕ → ℕ → ℚ := builtB LINE_DATA

/-- The AC model the source's build_ac_model() returns on the repository
data. -/
def acModel : ACModel := build_ac_model_from Gmat Bmat

/-- The DC model the source's build_dc_model() returns on the repository
data. -/
def dcModel : DCModel := build_dc_model_from Bmat

/-- A variable assignment honours every Pyomo fix of the list: fixed
variables keep exactly their fixed value in any solution a solver may
return (Pyomo's contract for Var.fix). -/
def fixesRespected {R : Type} [Field R] (fixes : List (Atom × ℚ)) (σ : Atom → R) : Prop :=
  ∀ p ∈ fixes, σ p.1 = (p.2 : R)

/-- numpy degrees conversion, exact over ℚ with the double value of pi. -/
def np_degrees (t : ℚ) : ℚ := t * (180 / np_pi)

/-- One row of the table printed by print_results (opf_corrected.py lines
206-214): bus label i+1, the Pg cell, the theta cell in degrees, and for the
AC report also the |V| and Qg cells. -/
structure PrintRow where
  bus : ℕ
  pg : ℚ
  thetaDeg : ℚ
  acPart : Option (ℚ × ℚ)
deriving DecidableEq, Repr

/-- print_results (opf_corrected.py lines 194-218): for each bus of the model
a row is printed, where a variable whose solver value is missing (None) is
shown as 0.0 — `m.Pg[i].value if m.Pg[i].value is not None else 0.0`, and
likewise for theta (converted with np.degrees when present), V and Qg.  The
solved values live on the model's variables; they are passed here as an
assignment of optional values.  The final cost line delegates to the external
pyo.value and is not part of the table. -/
def print_results (buses : List ℕ) (vals : Atom → Option ℚ) (ac : Bool) : List PrintRow :=
  buses.map fun i =>
    { bus := i + 1
      pg := (vals (.Pg i)).getD 0
      thetaDeg :=
        match vals (.theta i) with
        | some t => np_degrees t
        | none => 0
      acPart := if ac then some ((vals (.V i)).getD 0, (vals (.Qg i)).getD 0) else none }

/-- One printed cell of opf_utils.solve_and_print: the variable's value when
the solver produced one, the text "Not solved" otherwise. -/
inductive Cell
  | val : ℚ → Cell
  | notSolved
deriving DecidableEq, BEq, Repr

/-- Cell logic of opf_utils.py lines 35-38 (and 44-47, 52-55, 61-64): a Pyomo
variable object always has the attribute 'value', so the hasattr conjunct is
true and only the `is not None` test decides. -/
def cellOf (v : Option ℚ) : Cell :=
  match v with
  | some q => .val q
  | none => .notSolved

/-- Attribute of a Pyomo model object, as the opf_utils reporters consume
them: an index set, a Param, a Var family carrying optional solved values, an
Objective (which has an 'expr' attribute), or a Constraint family. -/
inductive PyAttr
  | aSet : List ℕ → PyAttr
  | aParam : (ℕ → ℚ) → PyAttr
  | aVarFam : (ℕ → Option ℚ) → PyAttr
  | aObjective : Expr → PyAttr
  | aConstraintFam : (ℕ → Expr × Expr) → PyAttr

/-- Python attribute lookup on a model object: AttributeError when the model
defines no component of that name. -/
def lookupAttr (m : List (String × PyAttr)) (s : String) : Except PyErr PyAttr :=
  match m.find? (fun p => p.1 == s) with
  | some p => .ok p.2
  | none => .error .attributeError

/-- Iterating a looked-up attribute as an index set (a non-set component
would be a Python TypeError; never reached on the repository's models). -/
def asSet : PyAttr → Except PyErr (List ℕ)
  | .aSet l => .ok l
  | _ => .error .typeError

/-- Indexing a looked-up attribute as a Var family. -/
def asVarFam : PyAttr → Except PyErr (ℕ → Option ℚ)
  | .aVarFam f => .ok f
  | _ => .error .typeError

/-- Effectful map over a list, stopping at the first Python error. -/
def mapE {α β : Type} (f : α → Except PyErr β) : List α → Except PyErr (List β)
  | [] => .ok []
  | a :: as => (f a).bind fun b => (mapE f as).map fun bs => b :: bs

/-- One printed section of solve_and_print: for each node, look the named Var
family up on the model (AttributeError when absent) and format its cell. -/
def varSection (m : List (String × PyAttr)) (s : String) (nodes : List ℕ) :
    Except PyErr (List Cell) :=
  mapE (fun i => ((lookupAttr m s).bind asVarFam).map fun f => cellOf (f i)) nodes

/-- What opf_utils.solve_and_print prints after the solve: the voltage-angle
section, the AC-only voltage-magnitude section, the power section, the
AC-only reactive-power section, and the cost line (present when
model.objective_function has an 'expr' attribute; its numeric value is
computed by the external pyo.value and kept here as the objective tree). -/
structure UtilsReport where
  angles : List Cell
  vmags : Option (List Cell)
  powers : List Cell
  qpowers : Option (List Cell)
  costExpr : Option Expr
deriving DecidableEq, Repr

/-- solve_and_print (opf_utils.py lines 8-71).  The initial solver dispatch
(NEOS / glpk) is the external Solve Orchestrator; the embedding covers the
reporting stage that follows, reading the model's components by attribute
name in source order: model.nodes first (line 34), then the x_v_angle, x_v,
x_p, x_q sections, then model.objective_function. -/
def solve_and_print (m : List (String × PyAttr)) (AC : Bool) : Except PyErr UtilsReport :=
  ((lookupAttr m "nodes").bind asSet).bind fun nodes =>
  (varSection m "x_v_angle" nodes).bind fun angles =>
  (if AC then (varSection m "x_v" nodes).map some else .ok none).bind fun vmags =>
  (varSection m "x_p" nodes).bind fun powers =>
  (if AC then (varSection m "x_q" nodes).map some else .ok none).bind fun qpowers =>
  (lookupAttr m "objective_function").map fun objA =>
    { angles := angles, vmags := vmags, powers := powers, qpowers := qpowers,
      costExpr := match objA with | .aObjective e => some e | _ => none }

/-- JSON record of one node in create_results_json: voltage_angle and power
always, voltage_magnitude and reactive_power only for AC.  A missing solver
value is stored as None (JSON null), never as 0. -/
structure NodeJson where
  voltage_angle : Option ℚ
  power : Option ℚ
  acFields : Option (Option ℚ × Option ℚ)
deriving DecidableEq, Repr

/-- The results document of create_results_json; nodes are keyed node_(i+1)
and kept here as (i+1, record) pairs in iteration order.  total_cost is
present when model.objective_function has an 'expr' attribute. -/
structure ResultsJson where
  team_name : String
  model_type : String
  nodes : List (ℕ × NodeJson)
  total_cost : Option Expr
deriving DecidableEq, Repr

/-- create_results_json (opf_utils.py lines 74-116): iterates model.nodes
(line 93, the first attribute access), reads model.x_v_angle and model.x_p
per node (plus x_v and x_q for AC), then model.objective_function.  The
closing json.dump to a file is I/O outside the core; the function also
returns the document, which is what is modelled. -/
def create_results_json (m : List (String × PyAttr)) (team_name : String) (AC : Bool) :
    Except PyErr ResultsJson :=
  ((lookupAttr m "nodes").bind asSet).bind fun nodes =>
  (mapE (fun i =>
      ((lookupAttr m "x_v_angle").bind asVarFam).bind fun ang =>
      ((lookupAttr m "x_p").bind asVarFam).bind fun p =>
      (if AC then
          ((lookupAttr m "x_v").bind asVarFam).bind fun v =>
          ((lookupAttr m "x_q").bind asVarFam).map fun q =>
          some (v i, q i)
        else .ok none).map fun acf =>
      (i + 1, NodeJson.mk (ang i) (p i) acf)) nodes).bind fun nodeData =>
  (lookupAttr m "objective_function").map fun objA =>
    { team_name := team_name
      model_type := if AC then "AC_OPF" else "DC_OPF"
      nodes := nodeData
      total_cost := match objA with | .aObjective e => some e | _ => none }

/-- Attribute view of the model build_ac_model returns, with the solved
variable values vals: the components assigned in source order in
build_ac_model (buses, Pload, Qload, Pg, Qg, V, theta, obj, p_balance,
q_balance). -/
def acPyattrs (vals : Atom → Option ℚ) : List (String × PyAttr) :=
  [("buses", .aSet acModel.buses),
   ("Pload", .aParam acModel.Pload),
   ("Qload", .aParam acModel.Qload),
   ("Pg", .aVarFam fun i => vals (.Pg i)),
   ("Qg", .aVarFam fun i => vals (.Qg i)),
   ("V", .aVarFam fun i => vals (.V i)),
   ("theta", .aVarFam fun i => vals (.theta i)),
   ("obj", .aObjective acModel.obj),
   ("p_balance", .aConstraintFam acModel.p_balance),
   ("q_balance", .aConstraintFam acModel.q_balance)]

/-- Attribute view of the model build_dc_model returns. -/
def dcPyattrs (vals : Atom → Option ℚ) : List (String × PyAttr) :=
  [("buses", .aSet dcModel.buses),
   ("Pload", .aParam dcModel.Pload),
   ("Pg", .aVarFam fun i => vals (.Pg i)),
   ("theta", .aVarFam fun i => vals (.theta i)),
   ("obj", .aObjective dcModel.obj),
   ("p_balance", .aConstraintFam dcModel.p_balance)]

/-- Attribute view of a one-node model carrying the component names
opf_utils is written against (x_v_angle, x_v, x_p, x_q, objective_function;
no builder in this repository produces such a model — this is a test input
exercising the reporters' formatting path). -/
def utilsFixture (vals : ℕ → Option ℚ) : List (String × PyAttr) :=
  [("nodes", .aSet [0]),
   ("x_v_angle", .aVarFam vals),
   ("x_v", .aVarFam vals),
   ("x_p", .aVarFam vals),
   ("x_q", .aVarFam vals),
   ("objective_function", .aObjective (.const 0))]

/-! Helper lemmas shared by the claim theorems. -/

theorem addEntry_apply (M : ℕ → ℕ → ℚ) (i j : ℕ) (v : ℚ) (a b : ℕ) :
    addEntry M i j v a b = M a b + (if a = i ∧ b = j then v else 0) := by
  unfold addEntry
  split <;> simp

theorem ite_mul_one (P : Prop) [Decidable P] (v : ℚ) :
    (if P then v else 0) = v * (if P then 1 else 0) := by
  split <;> simp

theorem sum_ite_const (P : Prop) [Decidable P] (n : ℕ) (f : ℕ → ℚ) :
    Finset.sum (Finset.range n) (fun k => if P then f k else 0) =
      if P then Finset.sum (Finset.range n) f else 0 := by
  split <;> simp

theorem z_sq_eq_zero_iff (r x : ℚ) : r ^ 2 + x ^ 2 = 0 ↔ r = 0 ∧ x = 0 := by
  constructor
  · intro h
    constructor <;> nlinarith [sq_nonneg r, sq_nonneg x]
  · rintro ⟨rfl, rfl⟩
    norm_num

theorem admStep_of_zero (GB : (ℕ → ℕ → ℚ) × (ℕ → ℕ → ℚ)) (i j : ℕ) (r x : ℚ)
    (hr : r = 0) (hx : x = 0) : admStep GB (i, j, r, x) = .error .zeroDivision := by
  subst hr hx
  norm_num [admStep, pydiv, Except.bind, Except.map]

theorem admStep_error_kind (GB : (ℕ → ℕ → ℚ) × (ℕ → ℕ → ℚ)) (l : ℕ × ℕ × ℚ × ℚ)
    (e : PyErr) (h : admStep GB l = .error e) : e = .zeroDivision := by
  obtain ⟨i, j, r, x⟩ := l
  by_cases hz : r ^ 2 + x ^ 2 = 0
  · simp [admStep, pydiv, hz, Except.bind] at h
    exact h.symm
  · simp [admStep, pydiv, hz, Except.bind, Except.map] at h

theorem admStep_ok_entries (GB GB' : (ℕ → ℕ → ℚ) × (ℕ → ℕ → ℚ)) (l : ℕ × ℕ × ℚ × ℚ)
    (h : admStep GB l = .ok GB') (a b : ℕ) :
    GB'.1 a b = GB.1 a b + lineContribG a b l ∧
      GB'.2 a b = GB.2 a b + lineContribB a b l := by
  obtain ⟨i, j, r, x⟩ := l
  by_cases hz : r ^ 2 + x ^ 2 = 0
  · simp [admStep, pydiv, hz, Except.bind] at h
  · simp [admStep, pydiv, hz, Except.bind, Except.map] at h
    subst h
    constructor
    · simp [addEntry_apply, lineContribG]
      ring
    · simp [addEntry_apply, lineContribB]
      ring_nf

theorem admStep_ok_exists (GB : (ℕ → ℕ → ℚ) × (ℕ → ℕ → ℚ)) (l : ℕ × ℕ × ℚ × ℚ)
    (h : ¬(l.2.2.1 = 0 ∧ l.2.2.2 = 0)) : ∃ GB', admStep GB l = .ok GB' := by
  obtain ⟨i, j, r, x⟩ := l
  have hz : r ^ 2 + x ^ 2 ≠ 0 := fun hc => h ((z_sq_eq_zero_iff r x).mp hc)
  cases hstep : admStep GB (i, j, r, x) with
  | ok GB' => exact ⟨GB', rfl⟩
  | error e =>
    exfalso
    simp [admStep, pydiv, hz, Except.bind, Except.map] at hstep

theorem admFold_ok_entries (lines : List (ℕ × ℕ × ℚ × ℚ)) :
    ∀ (GB₀ GB : (ℕ → ℕ → ℚ) × (ℕ → ℕ → ℚ)), admFold GB₀ lines = .ok GB →
      ∀ a b : ℕ,
        GB.1 a b = GB₀.1 a b + (lines.map (lineContribG a b)).sum ∧
          GB.2 a b = GB₀.2 a b + (lines.map (lineContribB a b)).sum := by
  induction lines with
  | nil =>
    intro GB₀ GB h a b
    simp only [admFold, Except.ok.injEq] at h
    subst h
    simp
  | cons l ls ih =>
    intro GB₀ GB h a b
    cases hstep : admStep GB₀ l with
    | error e => rw [admFold, hstep] at h; simp [Except.bind] at h
    | ok GB₁ =>
      rw [admFold, hstep] at h
      simp only [Except.bind] at h
      obtain ⟨h1, h2⟩ := ih GB₁ GB h a b
      obtain ⟨g1, g2⟩ := admStep_ok_entries GB₀ GB₁ l hstep a b
      refine ⟨?_, ?_⟩
      · rw [h1, g1, List.map_cons, List.sum_cons]; ring
      · rw [h2, g2, List.map_cons, List.sum_cons]; ring

theorem admFold_error_of_mem (lines : List (ℕ × ℕ × ℚ × ℚ)) :
    ∀ GB₀ : (ℕ → ℕ → ℚ) × (ℕ → ℕ → ℚ),
      (∃ l ∈ lines, l.2.2.1 = 0 ∧ l.2.2.2 = 0) →
      admFold GB₀ lines = .error .zeroDivision := by
  induction lines with
  | nil => intro GB₀ h; simp at h
  | cons l ls ih =>
    intro GB₀ h
    cases hstep : admStep GB₀ l with
    | error e =>
      rw [admFold, hstep]
      simp only [Except.bind]
      rw [admStep_error_kind GB₀ l e hstep]
    | ok GB₁ =>
      rw [admFold, hstep]
      simp only [Except.bind]
      obtain ⟨l', hl', hz'⟩ := h
      rcases List.mem_cons.mp hl' with hhead | htail
      · exfalso
        obtain ⟨i, j, r, x⟩ := l
        cases hhead
        rw [admStep_of_zero GB₀ i j r x hz'.1 hz'.2] at hstep
        exact Except.noConfusion hstep
      · exact ih GB₁ ⟨l', htail, hz'⟩

theorem admFold_ok_of_nonzero (lines : List (ℕ × ℕ × ℚ × ℚ)) :
    ∀ GB₀ : (ℕ → ℕ → ℚ) × (ℕ → ℕ → ℚ),
      (∀ l ∈ lines, ¬(l.2.2.1 = 0 ∧ l.2.2.2 = 0)) →
      ∃ GB, admFold GB₀ lines = .ok GB := by
  induction lines with
  | nil => intro GB₀ _; exact ⟨GB₀, rfl⟩
  | cons l ls ih =>
    intro GB₀ h
    obtain ⟨GB₁, h1⟩ := admStep_ok_exists GB₀ l (h l (List.mem_cons_self l ls))
    obtain ⟨GB, h2⟩ := ih GB₁ fun l' hl' => h l' (List.mem_cons_of_mem l hl')
    exact ⟨GB, by rw [admFold, h1]; simpa [Except.bind] using h2⟩

theorem builtG_closed (lines : List (ℕ × ℕ × ℚ × ℚ)) (h : admSucceeds lines = true)
    (a b : ℕ) :
    builtG lines a b = (lines.map (lineContribG a b)).sum ∧
      builtB lines a b = (lines.map (lineContribB a b)).sum := by
  cases hb : build_admittance_matrices lines with
  | error e => rw [admSucceeds, hb] at h; exact Bool.noConfusion h
  | ok GB =>
    have := admFold_ok_entries lines (fun _ _ => 0, fun _ _ => 0) GB hb a b
    rw [builtG, builtB, hb]
    simpa using this

theorem lineContribG_symm (p q : ℕ) (l : ℕ × ℕ × ℚ × ℚ) :
    lineContribG p q l = lineContribG q p l := by
  obtain ⟨i, j, r, x⟩ := l
  by_cases h1 : p = i <;> by_cases h2 : p = j <;> by_cases h3 : q = i <;>
    by_cases h4 : q = j <;>
    simp [lineContribG, h1, h2, h3, h4, and_comm, eq_comm] <;> ring

theorem lineContribB_symm (p q : ℕ) (l : ℕ × ℕ × ℚ × ℚ) :
    lineContribB p q l = lineContribB q p l := by
  obtain ⟨i, j, r, x⟩ := l
  by_cases h1 : p = i <;> by_cases h2 : p = j <;> by_cases h3 : q = i <;>
    by_cases h4 : q = j <;>
    simp [lineContribB, h1, h2, h3, h4, and_comm, eq_comm] <;> ring

theorem sum_exchange {α : Type} (lines : List α) (n : ℕ) (f : ℕ → α → ℚ) :
    Finset.sum (Finset.range n) (fun k => (lines.map (f k)).sum) =
      (lines.map fun l => Finset.sum (Finset.range n) fun k => f k l).sum := by
  induction lines with
  | nil => simp
  | cons l ls ih => simp [List.map_cons, List.sum_cons, Finset.sum_add_distrib, ih]

theorem lineContribG_row_sum (n : ℕ) (l : ℕ × ℕ × ℚ × ℚ)
    (h1 : l.1 < n) (h2 : l.2.1 < n) (i : ℕ) :
    Finset.sum (Finset.range n) (fun k => lineContribG i k l) = 0 := by
  obtain ⟨a, b, r, x⟩ := l
  simp only at h1 h2
  simp only [lineContribG, ite_and]
  rw [Finset.sum_add_distrib, Finset.sum_add_distrib, Finset.sum_add_distrib,
    sum_ite_const, sum_ite_const, sum_ite_const, sum_ite_const]
  rw [Finset.sum_ite_eq' (Finset.range n) a, Finset.sum_ite_eq' (Finset.range n) b,
    Finset.sum_ite_eq' (Finset.range n) b, Finset.sum_ite_eq' (Finset.range n) a]
  simp only [Finset.mem_range, h1, h2, if_pos]
  by_cases hia : i = a <;> by_cases hib : i = b <;> by_cases hab : a = b <;>
    simp_all

theorem lineContribB_row_sum (n : ℕ) (l : ℕ × ℕ × ℚ × ℚ)
    (h1 : l.1 < n) (h2 : l.2.1 < n) (i : ℕ) :
    Finset.sum (Finset.range n) (fun k => lineContribB i k l) = 0 := by
  obtain ⟨a, b, r, x⟩ := l
  simp only at h1 h2
  simp only [lineContribB, ite_and]
  rw [Finset.sum_add_distrib, Finset.sum_add_distrib, Finset.sum_add_distrib,
    sum_ite_const, sum_ite_const, sum_ite_const, sum_ite_const]
  rw [Finset.sum_ite_eq' (Finset.range n) a, Finset.sum_ite_eq' (Finset.range n) b,
    Finset.sum_ite_eq' (Finset.range n) b, Finset.sum_ite_eq' (Finset.range n) a]
  simp only [Finset.mem_range, h1, h2, if_pos]
  by_cases hia : i = a <;> by_cases hib : i = b <;> by_cases hab : a = b <;>
    simp_all

theorem eval_foldl_add {R : Type} [Field R] (c s : R → R) (σ : Atom → R)
    (l : List Expr) :
    ∀ acc : Expr, Expr.eval c s σ (l.foldl Expr.add acc) =
      Expr.eval c s σ acc + (l.map (Expr.eval c s σ)).sum := by
  induction l with
  | nil => intro acc; simp
  | cons e es ih =>
    intro acc
    rw [List.foldl_cons, ih, List.map_cons, List.sum_cons]
    show Expr.eval c s σ acc + Expr.eval c s σ e + _ = _
    ring

theorem eval_sumE {R : Type} [Field R] (c s : R → R) (σ : Atom → R) (l : List Expr) :
    Expr.eval c s σ (sumE l) = (l.map (Expr.eval c s σ)).sum := by
  rw [sumE, eval_foldl_add]
  show ((0 : ℚ) : R) + _ = _
  push_cast
  ring

theorem map_range_sum {R : Type} [Field R] (f : ℕ → R) (n : ℕ) :
    ((List.range n).map f).sum = Finset.sum (Finset.range n) f := by
  induction n with
  | zero => simp
  | succ n ih =>
    rw [List.range_succ, Finset.sum_range_succ, List.map_append, List.sum_append, ih]
    simp

theorem GEN_BUSES_eq : GEN_BUSES = [0, 1, 2] := by
  unfold GEN_BUSES N_BUS
  rw [show List.range 5 = [0, 1, 2, 3, 4] from rfl]
  norm_num [BUS_DATA]

theorem LOAD_BUSES_eq : LOAD_BUSES = [3, 4] := by
  unfold LOAD_BUSES N_BUS
  rw [show List.range 5 = [0, 1, 2, 3, 4] from rfl]
  simp only [GEN_BUSES_eq]
  decide

theorem acModel_fixes_eq :
    acModel.fixes = [(Atom.V 0, 1.06), (Atom.theta 0, 0), (Atom.Pg 3, 0), (Atom.Qg 3, 0),
      (Atom.Pg 4, 0), (Atom.Qg 4, 0)] := by
  show (build_ac_model_from Gmat Bmat).fixes = _
  rw [build_ac_model_from]
  simp [LOAD_BUSES_eq]

theorem dcModel_fixes_eq :
    dcModel.fixes = [(Atom.theta 0, 0), (Atom.Pg 3, 0), (Atom.Pg 4, 0)] := by
  show (build_dc_model_from Bmat).fixes = _
  rw [build_dc_model_from]
  simp [LOAD_BUSES_eq]

theorem admittance_LINE_DATA_ok :
    build_admittance_matrices LINE_DATA = .ok (Gmat, Bmat) := by
  norm_num [Gmat, Bmat, builtG, builtB, build_admittance_matrices, LINE_DATA, admFold,
    admStep, pydiv, addEntry, Except.bind, Except.map]

/-! Claim theorems. -/

/-- C1: build_admittance_matrices computes, for each line (i, j, r, x),
z_sq = r² + x², g = r / z_sq and b = -x / z_sq, adds g to G[i][i] and G[j][j]
and subtracts it from G[i][j] and G[j][i] (likewise b for B), so that whenever
the build returns, every entry is the additive combination of the per-line
contributions (parallel lines combine additively); in particular a single line
(r = 0.02, x = 0.06) between buses 0 and 1 gives g = 5, b = -15, and over the
2 buses G = [[5, -5], [-5, 5]] and B = [[-15, 15], [15, -15]]. -/
theorem claim_C1 :
    (∀ lines : List (ℕ × ℕ × ℚ × ℚ), admSucceeds lines = true →
      ∀ a b : ℕ,
        builtG lines a b = (lines.map (lineContribG a b)).sum ∧
          builtB lines a b = (lines.map (lineContribB a b)).sum) ∧
    (admSucceeds [(0, 1, 0.02, 0.06)] = true ∧
      builtG [(0, 1, 0.02, 0.06)] 0 0 = 5 ∧ builtG [(0, 1, 0.02, 0.06)] 0 1 = -5 ∧
      builtG [(0, 1, 0.02, 0.06)] 1 0 = -5 ∧ builtG [(0, 1, 0.02, 0.06)] 1 1 = 5 ∧
      builtB [(0, 1, 0.02, 0.06)] 0 0 = -15 ∧ builtB [(0, 1, 0.02, 0.06)] 0 1 = 15 ∧
      builtB [(0, 1, 0.02, 0.06)] 1 0 = 15 ∧ builtB [(0, 1, 0.02, 0.06)] 1 1 = -15) := by
  constructor
  · exact fun lines h a b => builtG_closed lines h a b
  · refine ⟨?_, ?_, ?_, ?_, ?_, ?_, ?_, ?_, ?_⟩ <;>
      norm_num [admSucceeds, builtG, builtB, build_admittance_matrices, admFold, admStep,
        pydiv, addEntry, Except.bind, Except.map]

/-- Witness for C1: the general accumulation formula applied to the concrete
single-line list of the spec's example. -/
theorem claim_C1_witness :
    admSucceeds [(0, 1, 0.02, 0.06)] = true ∧
      builtG [(0, 1, 0.02, 0.06)] 0 1 =
        ([((0 : ℕ), (1 : ℕ), (0.02 : ℚ), (0.06 : ℚ))].map (lineContribG 0 1)).sum := by
  constructor
  · norm_num [admSucceeds, build_admittance_matrices, admFold, admStep, pydiv, addEntry,
      Except.bind, Except.map]
  · exact (claim_C1.1 [(0, 1, 0.02, 0.06)]
      (by norm_num [admSucceeds, build_admittance_matrices, admFold, admStep, pydiv,
        addEntry, Except.bind, Except.map]) 0 1).1

/-- C2: when some line has r = 0 and x = 0, the checked division r / z_sq
raises ZeroDivisionError inside build_admittance_matrices, so the zero
impedance is rejected at admittance-build time, and both model builders
propagate that failure before any model is assembled. -/
theorem claim_C2 (lines : List (ℕ × ℕ × ℚ × ℚ)) (l : ℕ × ℕ × ℚ × ℚ)
    (hmem : l ∈ lines) (hr : l.2.2.1 = 0) (hx : l.2.2.2 = 0) :
    build_admittance_matrices lines = .error .zeroDivision ∧
      build_ac_model lines = .error .zeroDivision ∧
      build_dc_model lines = .error .zeroDivision := by
  have hb : build_admittance_matrices lines = .error .zeroDivision :=
    admFold_error_of_mem lines _ ⟨l, hmem, hr, hx⟩
  refine ⟨hb, ?_, ?_⟩ <;> simp [build_ac_model, build_dc_model, hb, Except.map]

/-- Witness for C2: a single zero-impedance line. -/
theorem claim_C2_witness :
    build_admittance_matrices [((0 : ℕ), (1 : ℕ), (0 : ℚ), (0 : ℚ))] =
        .error .zeroDivision ∧
      build_ac_model [(0, 1, 0, 0)] = .error .zeroDivision ∧
      build_dc_model [(0, 1, 0, 0)] = .error .zeroDivision :=
  claim_C2 [(0, 1, 0, 0)] (0, 1, 0, 0) (List.mem_singleton.mpr rfl) rfl rfl

/-- C3: the matrices build_admittance_matrices returns are symmetric in every
pair of indices, for every line list. -/
theorem claim_C3 (lines : List (ℕ × ℕ × ℚ × ℚ)) (i j : ℕ) :
    builtG lines i j = builtG lines j i ∧ builtB lines i j = builtB lines j i := by
  cases hb : build_admittance_matrices lines with
  | error e => simp [builtG, builtB, hb]
  | ok GB =>
    have h1 := admFold_ok_entries lines _ GB hb i j
    have h2 := admFold_ok_entries lines _ GB hb j i
    have hg : lineContribG i j = lineContribG j i := funext (lineContribG_symm i j)
    have hbb : lineContribB i j = lineContribB j i := funext (lineContribB_symm i j)
    simp only [builtG, builtB, hb]
    constructor
    · rw [h1.1, h2.1, hg]
    · rw [h1.2, h2.2, hbb]

/-- C4: for every bus i, the AC model's real-power balance constraint is
exactly Pg[i] - Pload[i] = Σ_k V[i]·V[k]·(G[i,k]·cos(θ[i]-θ[k]) +
B[i,k]·sin(θ[i]-θ[k])) and its reactive-power balance is exactly
Qg[i] - Qload[i] = Σ_k V[i]·V[k]·(G[i,k]·sin(θ[i]-θ[k]) -
B[i,k]·cos(θ[i]-θ[k])), the sums ranging over all buses k — under every
assignment, every field and every interpretation of cos and sin. -/
theorem claim_C4 :
    build_ac_model LINE_DATA = .ok acModel ∧
    ∀ (i : Fin N_BUS) (R : Type) [Field R] (c s : R → R) (σ : Atom → R),
      (Expr.eval c s σ (acModel.p_balance (i : ℕ)).1 =
          Expr.eval c s σ (acModel.p_balance (i : ℕ)).2 ↔
        σ (.Pg (i : ℕ)) - ((BUS_DATA (i : ℕ)).Pload : R) =
          Finset.sum (Finset.range N_BUS) fun k =>
            σ (.V (i : ℕ)) * σ (.V k) *
              ((Gmat (i : ℕ) k : R) * c (σ (.theta (i : ℕ)) - σ (.theta k)) +
                (Bmat (i : ℕ) k : R) * s (σ (.theta (i : ℕ)) - σ (.theta k)))) ∧
      (Expr.eval c s σ (acModel.q_balance (i : ℕ)).1 =
          Expr.eval c s σ (acModel.q_balance (i : ℕ)).2 ↔
        σ (.Qg (i : ℕ)) - ((BUS_DATA (i : ℕ)).Qload : R) =
          Finset.sum (Finset.range N_BUS) fun k =>
            σ (.V (i : ℕ)) * σ (.V k) *
              ((Gmat (i : ℕ) k : R) * s (σ (.theta (i : ℕ)) - σ (.theta k)) -
                (Bmat (i : ℕ) k : R) * c (σ (.theta (i : ℕ)) - σ (.theta k)))) := by
  constructor
  · rw [build_ac_model, admittance_LINE_DATA_ok]
    rfl
  · intro i R _ c s σ
    constructor
    · have hr : Expr.eval c s σ (acModel.p_balance (i : ℕ)).2 =
          Finset.sum (Finset.range N_BUS) fun k =>
            σ (.V (i : ℕ)) * σ (.V k) *
              ((Gmat (i : ℕ) k : R) * c (σ (.theta (i : ℕ)) - σ (.theta k)) +
                (Bmat (i : ℕ) k : R) * s (σ (.theta (i : ℕ)) - σ (.theta k))) := by
        show Expr.eval c s σ
            (sumE ((List.range N_BUS).map (acPTerm Gmat Bmat (i : ℕ)))) = _
        rw [eval_sumE, List.map_map, map_range_sum]
        exact Finset.sum_congr rfl fun k _ => rfl
      rw [show Expr.eval c s σ (acModel.p_balance (i : ℕ)).1 =
          σ (.Pg (i : ℕ)) - ((BUS_DATA (i : ℕ)).Pload : R) from rfl, hr]
    · have hr : Expr.eval c s σ (acModel.q_balance (i : ℕ)).2 =
          Finset.sum (Finset.range N_BUS) fun k =>
            σ (.V (i : ℕ)) * σ (.V k) *
              ((Gmat (i : ℕ) k : R) * s (σ (.theta (i : ℕ)) - σ (.theta k)) -
                (Bmat (i : ℕ) k : R) * c (σ (.theta (i : ℕ)) - σ (.theta k))) := by
        show Expr.eval c s σ
            (sumE ((List.range N_BUS).map (acQTerm Gmat Bmat (i : ℕ)))) = _
        rw [eval_sumE, List.map_map, map_range_sum]
        exact Finset.sum_congr rfl fun k _ => rfl
      rw [show Expr.eval c s σ (acModel.q_balance (i : ℕ)).1 =
          σ (.Qg (i : ℕ)) - ((BUS_DATA (i : ℕ)).Qload : R) from rfl, hr]

/-- C5: for every bus i, the DC model's power balance constraint is exactly
Pg[i] - Pload[i] = Σ_k B[i,k]·(θ[i] - θ[k]) with the sum over all buses k and
B the susceptance matrix from the admittance build. -/
theorem claim_C5 :
    build_dc_model LINE_DATA = .ok dcModel ∧
    ∀ (i : Fin N_BUS) (R : Type) [Field R] (c s : R → R) (σ : Atom → R),
      Expr.eval c s σ (dcModel.p_balance (i : ℕ)).1 =
          Expr.eval c s σ (dcModel.p_balance (i : ℕ)).2 ↔
        σ (.Pg (i : ℕ)) - ((BUS_DATA (i : ℕ)).Pload : R) =
          Finset.sum (Finset.range N_BUS) fun k =>
            (Bmat (i : ℕ) k : R) * (σ (.theta (i : ℕ)) - σ (.theta k)) := by
  constructor
  · rw [build_dc_model, admittance_LINE_DATA_ok]
    rfl
  · intro i R _ c s σ
    have hr : Expr.eval c s σ (dcModel.p_balance (i : ℕ)).2 =
        Finset.sum (Finset.range N_BUS) fun k =>
          (Bmat (i : ℕ) k : R) * (σ (.theta (i : ℕ)) - σ (.theta k)) := by
      show Expr.eval c s σ (sumE ((List.range N_BUS).map (dcPTerm Bmat (i : ℕ)))) = _
      rw [eval_sumE, List.map_map, map_range_sum]
      exact Finset.sum_congr rfl fun k _ => rfl
    rw [show Expr.eval c s σ (dcModel.p_balance (i : ℕ)).1 =
        σ (.Pg (i : ℕ)) - ((BUS_DATA (i : ℕ)).Pload : R) from rfl, hr]

/-- C6: the DC objective is the minimized linear sum over the generator buses
of b·Pg only — evaluating it gives 14·Pg[0] + 16·Pg[1] + 20·Pg[2], the b
coefficients alone; the quadratic coefficients a (15, 18) and constants c
(10, 12) of the cost data appear nowhere in it. -/
theorem claim_C6 :
    dcModel.sense = Sense.minimize ∧
    ∀ (R : Type) [Field R] (c s : R → R) (σ : Atom → R),
      Expr.eval c s σ dcModel.obj =
          (GEN_BUSES.map fun i => ((BUS_DATA i).b : R) * σ (.Pg i)).sum ∧
        Expr.eval c s σ dcModel.obj =
          14 * σ (.Pg 0) + 16 * σ (.Pg 1) + 20 * σ (.Pg 2) := by
  refine ⟨rfl, ?_⟩
  intro R _ c s σ
  have h1 : Expr.eval c s σ dcModel.obj =
      (GEN_BUSES.map fun i => ((BUS_DATA i).b : R) * σ (.Pg i)).sum := by
    show Expr.eval c s σ
        (sumE (GEN_BUSES.map fun i => .mul (.const (BUS_DATA i).b) (.var (.Pg i)))) = _
    rw [eval_sumE, List.map_map]
    rfl
  refine ⟨h1, ?_⟩
  rw [h1, GEN_BUSES_eq]
  show ((BUS_DATA 0).b : R) * σ (.Pg 0) +
      (((BUS_DATA 1).b : R) * σ (.Pg 1) + (((BUS_DATA 2).b : R) * σ (.Pg 2) + 0)) = _
  norm_num [BUS_DATA]
  ring_nf

/-- C7: in both models the generator set is exactly the buses with
PGmax > 0; for every other bus, Pg (and in the AC model also Qg) is fixed to
exactly 0, so every solution that honours the models' fixed variables — as
every solver-accepted solution must — has zero generation there. -/
theorem claim_C7 :
    (∀ i : ℕ, i ∈ GEN_BUSES ↔ i < N_BUS ∧ 0 < (BUS_DATA i).PGmax) ∧
    (∀ i : Fin N_BUS, (i : ℕ) ∉ GEN_BUSES →
      ((Atom.Pg (i : ℕ), (0 : ℚ)) ∈ acModel.fixes ∧
        (Atom.Qg (i : ℕ), (0 : ℚ)) ∈ acModel.fixes ∧
        (Atom.Pg (i : ℕ), (0 : ℚ)) ∈ dcModel.fixes)) ∧
    (∀ (R : Type) [Field R] (σ : Atom → R), fixesRespected acModel.fixes σ →
      ∀ i : Fin N_BUS, (i : ℕ) ∉ GEN_BUSES →
        σ (.Pg (i : ℕ)) = 0 ∧ σ (.Qg (i : ℕ)) = 0) ∧
    (∀ (R : Type) [Field R] (σ : Atom → R), fixesRespected dcModel.fixes σ →
      ∀ i : Fin N_BUS, (i : ℕ) ∉ GEN_BUSES → σ (.Pg (i : ℕ)) = 0) := by
  have hmem : ∀ i : Fin N_BUS, (i : ℕ) ∉ GEN_BUSES → ((i : ℕ) = 3 ∨ (i : ℕ) = 4) := by
    intro i h
    have h5 : (i : ℕ) < 5 := i.2
    rw [GEN_BUSES_eq] at h
    simp at h
    omega
  have hfix : ∀ i : Fin N_BUS, (i : ℕ) ∉ GEN_BUSES →
      ((Atom.Pg (i : ℕ), (0 : ℚ)) ∈ acModel.fixes ∧
        (Atom.Qg (i : ℕ), (0 : ℚ)) ∈ acModel.fixes ∧
        (Atom.Pg (i : ℕ), (0 : ℚ)) ∈ dcModel.fixes) := by
    intro i h
    rcases hmem i h with h3 | h3 <;>
      simp [acModel_fixes_eq, dcModel_fixes_eq, h3]
  refine ⟨?_, hfix, ?_, ?_⟩
  · intro i
    rw [GEN_BUSES, List.mem_filter, List.mem_range]
    simp [decide_eq_true_eq]
  · intro R _ σ hσ i h
    obtain ⟨hp, hq, _⟩ := hfix i h
    constructor
    · have := hσ _ hp
      simpa using this
    · have := hσ _ hq
      simpa using this
  · intro R _ σ hσ i h
    have := hσ _ (hfix i h).2.2
    simpa using this

/-- Witness for C7: the all-zero assignment honours the DC model's fixes, and
the theorem then forces zero generation at load bus 3. -/
theorem claim_C7_witness :
    fixesRespected (R := ℚ) dcModel.fixes (fun _ => 0) ∧
      (fun _ : Atom => (0 : ℚ)) (Atom.Pg 3) = 0 := by
  have hresp : fixesRespected (R := ℚ) dcModel.fixes (fun _ => 0) := by
    rw [dcModel_fixes_eq]
    intro p hp
    fin_cases hp <;> simp
  exact ⟨hresp, claim_C7.2.2.2 ℚ (fun _ => 0) hresp ⟨3, by decide⟩
    (by rw [GEN_BUSES_eq]; decide)⟩

/-- Counterexample to C8 as stated: print_results renders a solution with no
values at all identically to an all-zero solution, so a missing value is
silently shown as 0.0 rather than as an unsolved sentinel distinct from
zero. -/
theorem claim_C8_counterexample :
    print_results acModel.buses (fun _ => none) true =
      print_results acModel.buses (fun _ => some 0) true := by
  show print_results (List.range N_BUS) _ true = print_results (List.range N_BUS) _ true
  rw [show List.range N_BUS = [0, 1, 2, 3, 4] from rfl]
  norm_num [print_results, np_degrees]

/-- C8 amended: the reporting layer is split — print_results in
opf_corrected.py silently defaults every missing value to 0 (row i's Pg cell
is the solver value with default 0), while the opf_utils reporters do use an
explicit unsolved sentinel distinct from zero: solve_and_print prints a
"Not solved" cell and create_results_json stores null (none), as the fixture
runs show on an unsolved versus an all-zero model. -/
theorem claim_C8 :
    (∀ (vals : Atom → Option ℚ) (i : Fin N_BUS),
      ((print_results acModel.buses vals true).getD i ⟨0, 0, 0, none⟩).pg =
          (vals (.Pg (i : ℕ))).getD 0 ∧
        ((print_results dcModel.buses vals false).getD i ⟨0, 0, 0, none⟩).pg =
          (vals (.Pg (i : ℕ))).getD 0) ∧
    (cellOf none = Cell.notSolved ∧ (∀ q : ℚ, cellOf (some q) = Cell.val q) ∧
      (cellOf none == Cell.val 0) = false) ∧
    solve_and_print (utilsFixture fun _ => none) true =
      .ok ⟨[Cell.notSolved], some [Cell.notSolved], [Cell.notSolved],
        some [Cell.notSolved], some (.const 0)⟩ ∧
    create_results_json (utilsFixture fun _ => none) "team" true =
      .ok ⟨"team", "AC_OPF", [(1, ⟨none, none, some (none, none)⟩)], some (.const 0)⟩ ∧
    create_results_json (utilsFixture fun _ => some 0) "team" true =
      .ok ⟨"team", "AC_OPF", [(1, ⟨some 0, some 0, some (some 0, some 0)⟩)],
        some (.const 0)⟩ := by
  refine ⟨?_, ⟨rfl, fun q => rfl, rfl⟩, rfl, rfl, rfl⟩
  intro vals i
  fin_cases i <;> exact ⟨rfl, rfl⟩

/-- C9: when no line has zero impedance and all endpoints are in range, every
row of the returned G and B sums to zero over the n buses: each line's
contribution cancels between its diagonal and off-diagonal entries. -/
theorem claim_C9 (n : ℕ) (lines : List (ℕ × ℕ × ℚ × ℚ))
    (hz : ∀ l ∈ lines, ¬(l.2.2.1 = 0 ∧ l.2.2.2 = 0))
    (hrng : ∀ l ∈ lines, l.1 < n ∧ l.2.1 < n)
    (i : ℕ) (hi : i < n) :
    Finset.sum (Finset.range n) (fun k => builtG lines i k) = 0 ∧
      Finset.sum (Finset.range n) (fun k => builtB lines i k) = 0 := by
  obtain ⟨GB, hok⟩ := admFold_ok_of_nonzero lines _ hz
  have hokb : build_admittance_matrices lines = .ok GB := hok
  have hsucc : admSucceeds lines = true := by simp [admSucceeds, hokb]
  constructor
  · calc Finset.sum (Finset.range n) (fun k => builtG lines i k)
        = Finset.sum (Finset.range n) (fun k => (lines.map (lineContribG i k)).sum) :=
          Finset.sum_congr rfl fun k _ => (builtG_closed lines hsucc i k).1
      _ = (lines.map fun l =>
            Finset.sum (Finset.range n) fun k => lineContribG i k l).sum :=
          sum_exchange lines n fun k l => lineContribG i k l
      _ = 0 := List.sum_eq_zero fun q hq => by
          obtain ⟨l, hl, rfl⟩ := List.mem_map.mp hq
          exact lineContribG_row_sum n l (hrng l hl).1 (hrng l hl).2 i
  · calc Finset.sum (Finset.range n) (fun k => builtB lines i k)
        = Finset.sum (Finset.range n) (fun k => (lines.map (lineContribB i k)).sum) :=
          Finset.sum_congr rfl fun k _ => (builtG_closed lines hsucc i k).2
      _ = (lines.map fun l =>
            Finset.sum (Finset.range n) fun k => lineContribB i k l).sum :=
          sum_exchange lines n fun k l => lineContribB i k l
      _ = 0 := List.sum_eq_zero fun q hq => by
          obtain ⟨l, hl, rfl⟩ := List.mem_map.mp hq
          exact lineContribB_row_sum n l (hrng l hl).1 (hrng l hl).2 i

/-- Witness for C9: row 0 of the spec's single-line two-bus example. -/
theorem claim_C9_witness :
    Finset.sum (Finset.range 2) (fun k => builtG [(0, 1, 0.02, 0.06)] 0 k) = 0 ∧
      Finset.sum (Finset.range 2) (fun k => builtB [(0, 1, 0.02, 0.06)] 0 k) = 0 :=
  claim_C9 2 [(0, 1, 0.02, 0.06)] (by norm_num) (by norm_num) 0 (by norm_num)

/-- C10: on the models built by build_ac_model and build_dc_model, both
opf_utils reporters raise AttributeError — the first component they touch,
model.nodes, is absent, and so are x_v_angle, x_p, x_v, x_q and
objective_function. -/
theorem claim_C10 :
    (∀ vals : Atom → Option ℚ,
      solve_and_print (acPyattrs vals) true = .error .attributeError ∧
        solve_and_print (dcPyattrs vals) false = .error .attributeError ∧
        ∀ team : String,
          create_results_json (acPyattrs vals) team true = .error .attributeError ∧
            create_results_json (dcPyattrs vals) team false = .error .attributeError) ∧
    ∀ vals : Atom → Option ℚ,
      ∀ s ∈ ["nodes", "x_v_angle", "x_p", "x_v", "x_q", "objective_function"],
        s ∉ (acPyattrs vals).map Prod.fst ∧ s ∉ (dcPyattrs vals).map Prod.fst := by
  constructor
  · intro vals
    exact ⟨rfl, rfl, fun team => ⟨rfl, rfl⟩⟩
  · intro vals s hs
    fin_cases hs <;> constructor <;> simp [acPyattrs, dcPyattrs]

end OPF
